import Mathlib

/-!
Verification development for the Konnect Platform authentication core:
JWT issuance/validation, the token-revocation (blacklist) store with its
background reclamation loop, and the organization-membership gate.

The Go source is shallowly embedded: the shared relational datastore is a
list of records passed explicitly, a possibly-failing query carries an
injected `Option DbError`, and `time.Now()` becomes an explicit `now : Int`
(unix seconds).  Cryptographic primitives (HMAC-SHA256 signing, SHA-256
fingerprinting) are modelled as deterministic string encodings, which is
all the properties below depend on.
-/

namespace Konnect

/-- An error surfaced by the datastore layer (gorm's `result.Error`).
`duplicateKey` is the unique/primary-key-constraint violation. -/
inductive DbError
  | persistence (msg : String)
  | duplicateKey (key : String)
deriving DecidableEq

/-- JWT claims, from `utils.Claims`: custom `UserID`/`Email` plus the
registered time claims used by the code (exp, iat, nbf), as unix seconds. -/
structure Claims where
  UserID : String
  Email : String
  ExpiresAt : Int
  IssuedAt : Int
  NotBefore : Int
deriving DecidableEq

/-- Deterministic encoding of the claim set into the signed payload. -/
def encodeClaims (c : Claims) : String :=
  c.UserID ++ "|" ++ c.Email ++ "|" ++ toString c.ExpiresAt ++ "|" ++
    toString c.IssuedAt ++ "|" ++ toString c.NotBefore

/-- Model of HMAC-SHA256 signing (`jwt.SigningMethodHS256`): a deterministic
function of the secret and the encoded claims. -/
def hmacSign (secret : String) (c : Claims) : String :=
  "hs256:" ++ secret ++ ":" ++ encodeClaims c

/-- A raw bearer-token string: either a well-formed JWT carrying claims and a
signature, or an unparsable string. -/
inductive RawToken
  | wellFormed (claims : Claims) (mac : String)
  | malformed (s : String)
deriving DecidableEq

/-- Errors from token parsing/validation (all mapped to a generic
"invalid token" authentication failure by the HTTP layer). -/
inductive TokenError
  | malformedToken
  | invalidSignature
  | expired
  | notYetValid
deriving DecidableEq

/-- `utils.GenerateToken`: claims are userID, email,
exp = now + 60 minutes, iat = now, nbf = now, signed with the secret. -/
def GenerateToken (secret : String) (now : Int) (userID email : String) : RawToken :=
  let claims : Claims :=
    { UserID := userID, Email := email, ExpiresAt := now + 60 * 60,
      IssuedAt := now, NotBefore := now }
  RawToken.wellFormed claims (hmacSign secret claims)

/-- `utils.ValidateToken`: parse, verify the signature, then validate the
time claims as jwt/v5 does (valid while now < exp and nbf ≤ now). -/
def ValidateToken (secret : String) (now : Int) (raw : RawToken) : Except TokenError Claims :=
  match raw with
  | .malformed _ => .error .malformedToken
  | .wellFormed c mac =>
    if mac ≠ hmacSign secret c then .error .invalidSignature
    else if c.ExpiresAt ≤ now then .error .expired
    else if now < c.NotBefore then .error .notYetValid
    else .ok c

/-- `utils.GetTokenClaims`: parse with `jwt.WithoutClaimsValidation` — the
signature is verified but no time-based claim validation happens (the
function does not even consult a clock). -/
def GetTokenClaims (secret : String) (raw : RawToken) : Except TokenError Claims :=
  match raw with
  | .malformed _ => .error .malformedToken
  | .wellFormed c mac =>
    if mac ≠ hmacSign secret c then .error .invalidSignature
    else .ok c

/-- `utils.HashToken` / `BlacklistedTokenModel.HashToken`: SHA-256 digest of
the raw token string, modelled as a deterministic injective encoding. -/
def HashToken (raw : RawToken) : String :=
  match raw with
  | .wellFormed c mac => "sha256:" ++ encodeClaims c ++ ":" ++ mac
  | .malformed s => "sha256:raw:" ++ s

/-- A persisted revocation record, from `models.BlacklistedToken`
(creation/update timestamps omitted, nothing reads them). -/
structure BlacklistedToken where
  TokenHash : String
  UserID : String
  ExpiresAt : Int
deriving DecidableEq

/-- The count query inside `IsBlacklisted`:
`count where token_hash = ? and expires_at > now`, or the injected failure. -/
def blacklistCountQuery (fail : Option DbError) (store : List BlacklistedToken)
    (tokenHash : String) (now : Int) : Except DbError Nat :=
  match fail with
  | some e => .error e
  | none => .ok (store.countP fun r => decide (r.TokenHash = tokenHash ∧ now < r.ExpiresAt))

/-- `BlacklistedTokenModel.IsBlacklisted`: on a query error, return false
("assume token is valid to avoid blocking users"); otherwise count > 0. -/
def BlacklistedTokenModel.IsBlacklisted (fail : Option DbError)
    (store : List BlacklistedToken) (tokenHash : String) (now : Int) : Bool :=
  match blacklistCountQuery fail store tokenHash now with
  | .error _ => false
  | .ok count => decide (0 < count)

/-- `BlacklistedTokenModel.Create`: a plain `db.Create` insert.  `TokenHash`
is the primary key, so inserting an existing hash fails with the
constraint violation, which the method returns to its caller. -/
def BlacklistedTokenModel.Create (store : List BlacklistedToken)
    (tokenHash userID : String) (expiresAt : Int) : Except DbError (List BlacklistedToken) :=
  if store.any fun r => r.TokenHash = tokenHash then
    .error (DbError.duplicateKey tokenHash)
  else
    .ok (store ++ [{ TokenHash := tokenHash, UserID := userID, ExpiresAt := expiresAt }])

/-- `BlacklistedTokenModel.CleanupExpired`: `delete where expires_at <= now`.
Returns only the error value (nil on success); the rows-affected count is
logged inside the function, never returned. -/
def BlacklistedTokenModel.CleanupExpired (fail : Option DbError)
    (store : List BlacklistedToken) (now : Int) : Option DbError × List BlacklistedToken :=
  match fail with
  | some e => (some e, store)
  | none => (none, store.filter fun r => decide (now < r.ExpiresAt))

/-- The `RowsAffected` of the cleanup delete (the value that is logged):
how many persisted records have expiry at or before `now`. -/
def cleanupRowsAffected (store : List BlacklistedToken) (now : Int) : Nat :=
  store.countP fun r => decide (r.ExpiresAt ≤ now)

/-- `utils.GetEnv`: the environment value if non-empty, else the fallback
(`os.Getenv` yields the empty string for an unset variable). -/
def GetEnv (env : String → String) (key fallback : String) : String :=
  if env key ≠ "" then env key else fallback

/-- Go's `strconv.Atoi`: optional sign followed by at least one digit, and
the value must fit in a 64-bit `int`; a string whose value is out of that
range yields `ErrRange`, i.e. a non-nil error, modelled as `none` (the
clamped value Go also returns is never read, the caller only tests the
error). -/
def goAtoi (s : String) : Option Int :=
  let parseDigits : Int → List Char → Option Int := fun sgn l =>
    if l ≠ [] ∧ l.all (fun c => c.isDigit) then
      let n : Int := sgn * (l.foldl (fun acc c => acc * 10 + (c.toNat - 48)) 0 : Nat)
      if -(2 ^ 63) ≤ n ∧ n ≤ 2 ^ 63 - 1 then some n else none
    else none
  match s.data with
  | [] => none
  | c :: rest =>
    if c = '+' then parseDigits 1 rest
    else if c = '-' then parseDigits (-1) rest
    else parseDigits 1 (c :: rest)

/-- The interval computation at the top of `StartTokenCleanup`: parse
`TOKEN_CLEANUP_INTERVAL_MINUTES` (falling back to the string "60" when
unset), and on a parse error or a value below 1 use 1 minute. -/
def cleanupIntervalMinutes (env : String → String) : Int :=
  match goAtoi (GetEnv env "TOKEN_CLEANUP_INTERVAL_MINUTES" "60") with
  | none => 1
  | some n => if n < 1 then 1 else n

/-- A membership row, from `models.UserOrganizationMap`
(composite primary key userID + organizationID). -/
structure UserOrganizationMap where
  UserID : String
  OrganizationID : String
deriving DecidableEq

/-- An organization row, from `models.Organization`
(timestamp fields omitted, nothing below reads them). -/
structure Organization where
  ID : String
  Name : String
  Description : String
  CreatedBy : String
deriving DecidableEq

/-- The relevant slice of the shared datastore for the membership gate. -/
structure OrgDB where
  orgs : List Organization
  maps : List UserOrganizationMap
deriving DecidableEq

/-- `OrganizationModel.Create`: inside one transaction, insert the
organization row, then the creator's membership row; if either insert
fails the transaction is rolled back, leaving the store unchanged.
`newId` stands for the UUID minted in `BeforeCreate`; the injected
`orgInsertFail`/`mapInsertFail` model the two inserts failing. -/
def OrganizationModel.Create (db : OrgDB) (name description createdBy newId : String)
    (orgInsertFail mapInsertFail : Option DbError) : Except DbError Organization × OrgDB :=
  let organization : Organization :=
    { ID := newId, Name := name, Description := description, CreatedBy := createdBy }
  match orgInsertFail with
  | some e => (.error e, db)
  | none =>
    let userOrg : UserOrganizationMap :=
      { UserID := createdBy, OrganizationID := organization.ID }
    match mapInsertFail with
    | some e => (.error e, db)
    | none =>
      (.ok organization,
        { orgs := db.orgs ++ [organization], maps := db.maps ++ [userOrg] })

/-- `OrganizationModel.IsUserMember`: `count where organization_id = ? and
user_id = ?`, returning `(count > 0, err)`; on a failed query the count
variable keeps its zero value and the error is returned alongside. -/
def OrganizationModel.IsUserMember (fail : Option DbError)
    (maps : List UserOrganizationMap) (orgID userID : String) : Bool × Option DbError :=
  match fail with
  | some e => (false, some e)
  | none =>
    (decide (0 < maps.countP fun m => decide (m.OrganizationID = orgID ∧ m.UserID = userID)),
      none)

/-- Outcome of `OrganizationAccessMiddleware` for one request. -/
inductive MwOutcome
  | badRequest
  | internalError
  | forbidden
  | proceed
deriving DecidableEq

/-- `middleware.OrganizationAccessMiddleware`: missing ids give 400; a
membership-query error gives 500 (fail-closed); a non-member gives 403
with a generic message; a member proceeds. -/
def OrganizationAccessMiddleware (db : OrgDB) (fail : Option DbError)
    (userID orgID : String) : MwOutcome :=
  if userID = "" ∨ orgID = "" then .badRequest
  else
    match OrganizationModel.IsUserMember fail db.maps orgID userID with
    | (_, some _) => .internalError
    | (isMember, none) => if isMember then .proceed else .forbidden

/-- The Authorization header as the handlers see it: absent/empty, present
without the "Bearer " prefix, or a bearer token. -/
inductive AuthHeader
  | missing
  | notBearer
  | bearer (raw : RawToken)

/-- Outcome of `middleware.AuthMiddleware` for one request. -/
inductive AuthOutcome
  | unauthorizedHeader
  | unauthorizedFormat
  | unauthorizedInvalidToken
  | unauthorizedBlacklisted
  | proceed (userID email : String)
deriving DecidableEq

/-- `middleware.AuthMiddleware`: header checks, `ValidateToken`, then the
blacklist membership check on the token's fingerprint; only if all pass
does the request proceed with the user identity in context. -/
def AuthMiddleware (secret : String) (now : Int) (blFail : Option DbError)
    (store : List BlacklistedToken) (hdr : AuthHeader) : AuthOutcome :=
  match hdr with
  | .missing => .unauthorizedHeader
  | .notBearer => .unauthorizedFormat
  | .bearer raw =>
    match ValidateToken secret now raw with
    | .error _ => .unauthorizedInvalidToken
    | .ok claims =>
      if BlacklistedTokenModel.IsBlacklisted blFail store (HashToken raw) now then
        .unauthorizedBlacklisted
      else
        .proceed claims.UserID claims.Email

/-- Outcome of `UserController.Logout` for one request. -/
inductive LogoutOutcome
  | unauthorizedHeader
  | unauthorizedInvalidToken
  | serverError
  | noContent
deriving DecidableEq

/-- `UserController.Logout`: require a bearer header, extract claims with
`GetTokenClaims`, then `BlacklistedTokenModel.Create` the fingerprint; a
create error becomes 500 "Failed to logout", success becomes 204. -/
def UserController.Logout (secret : String) (store : List BlacklistedToken)
    (hdr : AuthHeader) : LogoutOutcome × List BlacklistedToken :=
  match hdr with
  | .missing => (.unauthorizedHeader, store)
  | .notBearer => (.unauthorizedHeader, store)
  | .bearer raw =>
    match GetTokenClaims secret raw with
    | .error _ => (.unauthorizedInvalidToken, store)
    | .ok claims =>
      match BlacklistedTokenModel.Create store (HashToken raw) claims.UserID claims.ExpiresAt with
      | .error _ => (.serverError, store)
      | .ok newStore => (.noContent, newStore)

/-- The membership invariant `OrganizationModel.Create` maintains: every
organization row has a membership row for its creator. -/
def creatorEnrolled (db : OrgDB) : Prop :=
  ∀ o ∈ db.orgs, ∃ m ∈ db.maps, m.UserID = o.CreatedBy ∧ m.OrganizationID = o.ID

/-- Concrete claims used in the counterexample/witness instantiations. -/
def sampleClaims : Claims :=
  { UserID := "u1", Email := "u1@example.com", ExpiresAt := 3600,
    IssuedAt := 0, NotBefore := 0 }

/-- A token for `sampleClaims` correctly signed with the secret "s". -/
def sampleToken : RawToken :=
  RawToken.wellFormed sampleClaims (hmacSign "s" sampleClaims)

/-- C6: for every valid (userID, email) pair, issuing a token and immediately
validating it succeeds, the returned claims carry exactly the input userID
and email, and the expires-at claim equals issued-at plus exactly 60
minutes (with issued-at being the issue-time clock value). -/
theorem generate_then_validate_roundtrip :
    ∀ (secret : String) (now : Int) (userID email : String),
      ∃ c, ValidateToken secret now (GenerateToken secret now userID email) = .ok c ∧
        c.UserID = userID ∧ c.Email = email ∧
        c.ExpiresAt = c.IssuedAt + 60 * 60 ∧ c.IssuedAt = now := by
  intro secret now userID email
  refine ⟨{ UserID := userID, Email := email, ExpiresAt := now + 60 * 60,
            IssuedAt := now, NotBefore := now }, ?_, rfl, rfl, rfl, rfl⟩
  have h1 : ¬ (now + 60 * 60 ≤ now) := by omega
  have h2 : ¬ (now < now) := by omega
  simp [ValidateToken, GenerateToken, h1, h2]

/-- C7: validation fails (with an invalid-token error) on any well-formed
token once the clock is past its expires-at claim, and succeeds on an
otherwise-valid token (correct signature, not-before satisfied) whose
expiry has not yet passed. -/
theorem validate_expiry_boundary :
    ∀ (secret : String) (now : Int) (c : Claims) (mac : String),
      (c.ExpiresAt < now →
        ∃ e, ValidateToken secret now (.wellFormed c mac) = .error e) ∧
      (mac = hmacSign secret c → c.NotBefore ≤ now → now < c.ExpiresAt →
        ValidateToken secret now (.wellFormed c mac) = .ok c) := by
  intro secret now c mac
  constructor
  · intro hlt
    by_cases hm : mac = hmacSign secret c
    · have hle : c.ExpiresAt ≤ now := le_of_lt hlt
      exact ⟨.expired, by simp [ValidateToken, hm, hle]⟩
    · exact ⟨.invalidSignature, by simp [ValidateToken, hm]⟩
  · intro hm h1 h2
    have hne : ¬ (c.ExpiresAt ≤ now) := by omega
    have hnb : ¬ (now < c.NotBefore) := by omega
    simp [ValidateToken, hm, hne, hnb]

/-- Boundary witness for C7 on a concretely generated token: invalid one
second after expiry, valid one second before expiry. -/
theorem validate_expiry_boundary_witness :
    (sampleClaims.ExpiresAt < 3601 ∧
      ∃ e, ValidateToken "s" 3601 (.wellFormed sampleClaims (hmacSign "s" sampleClaims)) =
        .error e) ∧
    (sampleClaims.NotBefore ≤ 3599 ∧ (3599 : Int) < sampleClaims.ExpiresAt ∧
      ValidateToken "s" 3599 (.wellFormed sampleClaims (hmacSign "s" sampleClaims)) =
        .ok sampleClaims) :=
  ⟨⟨by decide, (validate_expiry_boundary "s" 3601 sampleClaims _).1 (by decide)⟩,
   ⟨by decide, by decide,
    (validate_expiry_boundary "s" 3599 sampleClaims _).2 rfl (by decide) (by decide)⟩⟩

/-- C8: claim extraction for logout verifies the signature but performs no
time-based validation: it consults no clock at all, returns the embedded
claims for any correctly signed token (however expired or not yet valid
its time claims are), and fails exactly when the signature does not match
or the token does not parse. -/
theorem get_token_claims_unchecked :
    ∀ (secret : String) (c : Claims) (mac s : String),
      (mac = hmacSign secret c → GetTokenClaims secret (.wellFormed c mac) = .ok c) ∧
      (mac ≠ hmacSign secret c →
        GetTokenClaims secret (.wellFormed c mac) = .error .invalidSignature) ∧
      GetTokenClaims secret (.malformed s) = .error .malformedToken := by
  intro secret c mac s
  refine ⟨fun hm => ?_, fun hm => ?_, rfl⟩
  · simp [GetTokenClaims, hm]
  · simp [GetTokenClaims, hm]

/-- Witness for C8 at a token whose expiry (3600) is far in the past of any
later clock: extraction still succeeds, and a wrong signature fails. -/
theorem get_token_claims_unchecked_witness :
    (hmacSign "s" sampleClaims = hmacSign "s" sampleClaims ∧
      GetTokenClaims "s" (.wellFormed sampleClaims (hmacSign "s" sampleClaims)) =
        .ok sampleClaims) ∧
    ("forged" ≠ hmacSign "s" sampleClaims ∧
      GetTokenClaims "s" (.wellFormed sampleClaims "forged") =
        .error .invalidSignature) :=
  ⟨⟨rfl, (get_token_claims_unchecked "s" sampleClaims _ "").1 rfl⟩,
   ⟨by decide, (get_token_claims_unchecked "s" sampleClaims "forged" "").2.1 (by decide)⟩⟩

/-- C1: the revocation membership check is fail-open: when the underlying
count query fails, `IsBlacklisted` returns false (no error is returned or
propagated), and consequently the auth middleware lets an otherwise-valid
request proceed rather than blocking it. -/
theorem isBlacklisted_fail_open :
    (∀ (e : DbError) (store : List BlacklistedToken) (tokenHash : String) (now : Int),
      BlacklistedTokenModel.IsBlacklisted (some e) store tokenHash now = false) ∧
    (∀ (secret : String) (now : Int) (e : DbError) (store : List BlacklistedToken)
        (raw : RawToken) (c : Claims),
      ValidateToken secret now raw = .ok c →
      AuthMiddleware secret now (some e) store (.bearer raw) = .proceed c.UserID c.Email) := by
  constructor
  · intro e store tokenHash now
    rfl
  · intro secret now e store raw c h
    simp [AuthMiddleware, h, BlacklistedTokenModel.IsBlacklisted, blacklistCountQuery]

/-- Witness for C1: with the datastore erroring, a valid token's request
proceeds. -/
theorem isBlacklisted_fail_open_witness :
    ValidateToken "s" 10 sampleToken = .ok sampleClaims ∧
    AuthMiddleware "s" 10 (some (DbError.persistence "connection refused")) []
      (.bearer sampleToken) = .proceed sampleClaims.UserID sampleClaims.Email :=
  ⟨rfl,
   isBlacklisted_fail_open.2 "s" 10 (DbError.persistence "connection refused") []
     sampleToken sampleClaims rfl⟩

/-- C9: a revocation record whose expiry is at or before the current time is
already treated as not revoked by `IsBlacklisted` (its query requires
expires_at strictly greater than now), without waiting for cleanup. -/
theorem isBlacklisted_expired_record :
    ∀ (store : List BlacklistedToken) (tokenHash : String) (now : Int),
      (∀ r ∈ store, r.TokenHash = tokenHash → r.ExpiresAt ≤ now) →
      BlacklistedTokenModel.IsBlacklisted none store tokenHash now = false := by
  intro store tokenHash now h
  simp [BlacklistedTokenModel.IsBlacklisted, blacklistCountQuery, List.countP_eq_zero]
  intro r hr hth
  have := h r hr hth
  omega

/-- Witness for C9: a persisted record for the queried hash with expiry 5 is
reported not revoked at time 9. -/
theorem isBlacklisted_expired_record_witness :
    (∀ r ∈ [({ TokenHash := "h", UserID := "u", ExpiresAt := 5 } : BlacklistedToken)],
      r.TokenHash = "h" → r.ExpiresAt ≤ 9) ∧
    BlacklistedTokenModel.IsBlacklisted none
      [{ TokenHash := "h", UserID := "u", ExpiresAt := 5 }] "h" 9 = false :=
  ⟨by decide, isBlacklisted_expired_record _ "h" 9 (by decide)⟩

/-- C2: the membership gate fails closed.  `IsUserMember` returns
`(false, none)` when no membership row matches; a query error makes the
middleware abort with an internal error; a non-member gets Forbidden; and
the middleware outcome never depends on the organizations table, so the
Forbidden response cannot distinguish whether the organization exists. -/
theorem membership_gate_fail_closed :
    (∀ (maps : List UserOrganizationMap) (orgID userID : String),
      (∀ m ∈ maps, ¬ (m.OrganizationID = orgID ∧ m.UserID = userID)) →
      OrganizationModel.IsUserMember none maps orgID userID = (false, none)) ∧
    (∀ (db : OrgDB) (e : DbError) (userID orgID : String),
      userID ≠ "" → orgID ≠ "" →
      OrganizationAccessMiddleware db (some e) userID orgID = .internalError) ∧
    (∀ (db : OrgDB) (userID orgID : String),
      userID ≠ "" → orgID ≠ "" →
      (∀ m ∈ db.maps, ¬ (m.OrganizationID = orgID ∧ m.UserID = userID)) →
      OrganizationAccessMiddleware db none userID orgID = .forbidden) ∧
    (∀ (orgs1 orgs2 : List Organization) (maps : List UserOrganizationMap)
        (fail : Option DbError) (userID orgID : String),
      OrganizationAccessMiddleware ⟨orgs1, maps⟩ fail userID orgID =
        OrganizationAccessMiddleware ⟨orgs2, maps⟩ fail userID orgID) := by
  have hmem : ∀ (maps : List UserOrganizationMap) (orgID userID : String),
      (∀ m ∈ maps, ¬ (m.OrganizationID = orgID ∧ m.UserID = userID)) →
      OrganizationModel.IsUserMember none maps orgID userID = (false, none) := by
    intro maps orgID userID h
    simp [OrganizationModel.IsUserMember]
    intro m hm h1 h2
    exact h m hm ⟨h1, h2⟩
  refine ⟨hmem, ?_, ?_, ?_⟩
  · intro db e userID orgID hu ho
    simp [OrganizationAccessMiddleware, hu, ho, OrganizationModel.IsUserMember]
  · intro db userID orgID hu ho h
    simp [OrganizationAccessMiddleware, hu, ho, hmem db.maps orgID userID h]
  · intro orgs1 orgs2 maps fail userID orgID
    rfl

/-- Witness for C2: user "u2" never joined org "o1"; with a healthy store the
gate answers Forbidden, and with an erroring store it answers internal
error. -/
theorem membership_gate_fail_closed_witness :
    OrganizationModel.IsUserMember none [{ UserID := "u1", OrganizationID := "o1" }]
      "o1" "u2" = (false, none) ∧
    OrganizationAccessMiddleware
      ⟨[{ ID := "o1", Name := "n", Description := "d", CreatedBy := "u1" }],
       [{ UserID := "u1", OrganizationID := "o1" }]⟩
      (some (DbError.persistence "connection refused")) "u2" "o1" = .internalError ∧
    OrganizationAccessMiddleware
      ⟨[{ ID := "o1", Name := "n", Description := "d", CreatedBy := "u1" }],
       [{ UserID := "u1", OrganizationID := "o1" }]⟩
      none "u2" "o1" = .forbidden :=
  ⟨membership_gate_fail_closed.1 _ "o1" "u2" (by decide),
   membership_gate_fail_closed.2.1 _ (DbError.persistence "connection refused") "u2" "o1"
     (by decide) (by decide),
   membership_gate_fail_closed.2.2.1 _ "u2" "o1" (by decide) (by decide) (by decide)⟩

/-- C10: organization creation is atomic with creator enrollment: if either
insert fails the store is returned unchanged (rollback); on success the
new organization row and its creator's membership row are both present;
and the invariant that every organization has a membership row for its
creator is preserved by the operation in every case. -/
theorem org_create_atomic :
    ∀ (db : OrgDB) (name description createdBy newId : String)
      (orgFail mapFail : Option DbError),
      (∀ e, (OrganizationModel.Create db name description createdBy newId orgFail mapFail).1 =
          .error e →
        (OrganizationModel.Create db name description createdBy newId orgFail mapFail).2 = db) ∧
      (∀ org, (OrganizationModel.Create db name description createdBy newId orgFail mapFail).1 =
          .ok org →
        org.CreatedBy = createdBy ∧
        org ∈ (OrganizationModel.Create db name description createdBy newId orgFail mapFail).2.orgs ∧
        ({ UserID := createdBy, OrganizationID := org.ID } : UserOrganizationMap) ∈
          (OrganizationModel.Create db name description createdBy newId orgFail mapFail).2.maps) ∧
      (creatorEnrolled db →
        creatorEnrolled (OrganizationModel.Create db name description createdBy newId orgFail mapFail).2) := by
  intro db name description createdBy newId orgFail mapFail
  match orgFail, mapFail with
  | some e, _ =>
    refine ⟨fun _ _ => rfl, fun org h => ?_, fun h => h⟩
    simp [OrganizationModel.Create] at h
  | none, some e =>
    refine ⟨fun _ _ => rfl, fun org h => ?_, fun h => h⟩
    simp [OrganizationModel.Create] at h
  | none, none =>
    refine ⟨fun e h => ?_, fun org h => ?_, fun h => ?_⟩
    · simp [OrganizationModel.Create] at h
    · have h2 : Except.ok ({ ID := newId, Name := name, Description := description, CreatedBy := createdBy } : Organization) = Except.ok org := h
      injection h2 with h3
      subst h3
      exact ⟨rfl, by simp [OrganizationModel.Create], by simp [OrganizationModel.Create]⟩
    · intro o ho
      simp [OrganizationModel.Create] at ho
      rcases ho with ho | ho
      · obtain ⟨m, hm, hprop⟩ := h o ho
        exact ⟨m, by simp [OrganizationModel.Create, hm], hprop⟩
      · subst ho
        exact ⟨{ UserID := createdBy, OrganizationID := newId },
          by simp [OrganizationModel.Create], rfl, rfl⟩

/-- Witness for C10: creating org "o1" by "u1" over an initially enrolled
store succeeds with both rows present, and an injected failure of the
membership insert leaves the store unchanged. -/
theorem org_create_atomic_witness :
    ((OrganizationModel.Create ⟨[], []⟩ "n" "d" "u1" "o1" none none).1 =
        .ok { ID := "o1", Name := "n", Description := "d", CreatedBy := "u1" } ∧
      ({ ID := "o1", Name := "n", Description := "d", CreatedBy := "u1" } : Organization) ∈
        (OrganizationModel.Create ⟨[], []⟩ "n" "d" "u1" "o1" none none).2.orgs ∧
      ({ UserID := "u1", OrganizationID := "o1" } : UserOrganizationMap) ∈
        (OrganizationModel.Create ⟨[], []⟩ "n" "d" "u1" "o1" none none).2.maps) ∧
    (OrganizationModel.Create ⟨[], []⟩ "n" "d" "u1" "o1" none
        (some (DbError.persistence "insert failed"))).2 = (⟨[], []⟩ : OrgDB) :=
  ⟨⟨rfl,
    ((org_create_atomic ⟨[], []⟩ "n" "d" "u1" "o1" none none).2.1
      { ID := "o1", Name := "n", Description := "d", CreatedBy := "u1" } rfl).2.1,
    ((org_create_atomic ⟨[], []⟩ "n" "d" "u1" "o1" none none).2.1
      { ID := "o1", Name := "n", Description := "d", CreatedBy := "u1" } rfl).2.2⟩,
   (org_create_atomic ⟨[], []⟩ "n" "d" "u1" "o1" none
      (some (DbError.persistence "insert failed"))).1
     (DbError.persistence "insert failed") rfl⟩

/-- C3 counterexample: logging out twice with the same token is observably
different the second time.  After a first logout records the fingerprint,
the same logout request hits the primary-key constraint in `Create` and
the handler answers the 500 "Failed to logout" outcome, not the 204
success outcome. -/
theorem logout_twice_errors :
    (UserController.Logout "s"
        (UserController.Logout "s" [] (.bearer sampleToken)).2
        (.bearer sampleToken)).1 = .serverError ∧
    (UserController.Logout "s" [] (.bearer sampleToken)).1 = .noContent ∧
    LogoutOutcome.serverError ≠ LogoutOutcome.noContent := by
  refine ⟨rfl, rfl, by decide⟩

/-- C3 amended: when the token's fingerprint is already recorded, the
duplicate insert is rejected by the unique/primary-key constraint, the
model returns that error, and logout surfaces it to the caller as a
server error (leaving the store unchanged) instead of returning success. -/
theorem logout_duplicate_surfaces_error :
    ∀ (secret : String) (store : List BlacklistedToken) (raw : RawToken) (c : Claims),
      GetTokenClaims secret raw = .ok c →
      (store.any fun r => r.TokenHash = HashToken raw) = true →
      UserController.Logout secret store (.bearer raw) = (.serverError, store) := by
  intro secret store raw c h hdup
  simp [UserController.Logout, h, BlacklistedTokenModel.Create, hdup]

/-- Witness for the amended C3 at the concrete double-logout store. -/
theorem logout_duplicate_surfaces_error_witness :
    GetTokenClaims "s" sampleToken = .ok sampleClaims ∧
    ((UserController.Logout "s" [] (.bearer sampleToken)).2.any
      fun r => r.TokenHash = HashToken sampleToken) = true ∧
    UserController.Logout "s" (UserController.Logout "s" [] (.bearer sampleToken)).2
      (.bearer sampleToken) =
      (.serverError, (UserController.Logout "s" [] (.bearer sampleToken)).2) :=
  ⟨rfl, by decide,
   logout_duplicate_surfaces_error "s" _ sampleToken sampleClaims rfl (by decide)⟩

/-- C4 counterexample: with the interval variable set to the unparsable
string "abc", the loop's interval is 1 minute, not the claimed default of
60 minutes. -/
theorem cleanup_interval_unparsable_is_one :
    cleanupIntervalMinutes (fun _ => "abc") = 1 ∧ (1 : Int) ≠ 60 := by
  refine ⟨rfl, by decide⟩

/-- C4 amended: only an unset (empty) interval variable yields the 60-minute
default; a set value on which `strconv.Atoi` errors (non-numeric or out of
the 64-bit int range) and a parsed value below 1 fall back to 1 minute, a
parsed value of at least 1 is used as-is, and in every case the computed
interval is positive, so startup never fails. -/
theorem cleanup_interval_fallbacks :
    ∀ (env : String → String),
      (env "TOKEN_CLEANUP_INTERVAL_MINUTES" = "" → cleanupIntervalMinutes env = 60) ∧
      (env "TOKEN_CLEANUP_INTERVAL_MINUTES" ≠ "" →
        goAtoi (env "TOKEN_CLEANUP_INTERVAL_MINUTES") = none →
        cleanupIntervalMinutes env = 1) ∧
      (∀ n : Int, env "TOKEN_CLEANUP_INTERVAL_MINUTES" ≠ "" →
        goAtoi (env "TOKEN_CLEANUP_INTERVAL_MINUTES") = some n →
        cleanupIntervalMinutes env = if n < 1 then 1 else n) ∧
      1 ≤ cleanupIntervalMinutes env := by
  intro env
  refine ⟨fun h => ?_, fun h hparse => ?_, fun n h hparse => ?_, ?_⟩
  · simp [cleanupIntervalMinutes, GetEnv, h]
    decide
  · simp [cleanupIntervalMinutes, GetEnv, h, hparse]
  · simp [cleanupIntervalMinutes, GetEnv, h, hparse]
  · unfold cleanupIntervalMinutes
    cases hg : goAtoi (GetEnv env "TOKEN_CLEANUP_INTERVAL_MINUTES" "60") with
    | none => decide
    | some n =>
      by_cases hn : n < 1
      · simp [hn]
      · simp [hn]; omega

/-- Witness for the amended C4: unset gives 60; "abc" gives 1; a string one
past the largest 64-bit int is an `Atoi` range error and also gives 1;
"-5" parses and is clamped through the below-1 branch. -/
theorem cleanup_interval_fallbacks_witness :
    cleanupIntervalMinutes (fun _ => "") = 60 ∧
    cleanupIntervalMinutes (fun _ => "abc") = 1 ∧
    cleanupIntervalMinutes (fun _ => "9223372036854775808") = 1 ∧
    cleanupIntervalMinutes (fun _ => "-5") = if (-5 : Int) < 1 then 1 else -5 :=
  ⟨(cleanup_interval_fallbacks (fun _ => "")).1 rfl,
   (cleanup_interval_fallbacks (fun _ => "abc")).2.1 (by decide) (by decide),
   (cleanup_interval_fallbacks (fun _ => "9223372036854775808")).2.1 (by decide) (by decide),
   (cleanup_interval_fallbacks (fun _ => "-5")).2.2.1 (-5) (by decide) (by decide)⟩

/-- C5 counterexample: the cleanup operation does not return the number of
removed records to its caller.  Two stores from which different numbers
of records (1 versus 2) are removed produce the very same caller-visible
return value (a nil error); the rows-affected count is only logged inside
the function. -/
theorem cleanup_returns_no_count :
    (BlacklistedTokenModel.CleanupExpired none
        [{ TokenHash := "h1", UserID := "u1", ExpiresAt := 0 }] 5).1 =
      (BlacklistedTokenModel.CleanupExpired none
        [{ TokenHash := "h1", UserID := "u1", ExpiresAt := 0 },
         { TokenHash := "h2", UserID := "u2", ExpiresAt := 3 }] 5).1 ∧
    cleanupRowsAffected [{ TokenHash := "h1", UserID := "u1", ExpiresAt := 0 }] 5 ≠
      cleanupRowsAffected [{ TokenHash := "h1", UserID := "u1", ExpiresAt := 0 },
        { TokenHash := "h2", UserID := "u2", ExpiresAt := 3 }] 5 := by
  refine ⟨rfl, by decide⟩

/-- C5 amended: the cleanup deletes exactly the records whose expiry is at
or before now (later-expiring records are untouched), the number removed
equals the rows-affected count that is logged (it is not returned; the
caller only sees a nil error on success), and an underlying delete
failure is propagated as the error with the store unchanged. -/
theorem cleanup_expired_exact :
    ∀ (store : List BlacklistedToken) (now : Int),
      (∀ e, BlacklistedTokenModel.CleanupExpired (some e) store now = (some e, store)) ∧
      (BlacklistedTokenModel.CleanupExpired none store now).1 = none ∧
      (∀ r, r ∈ (BlacklistedTokenModel.CleanupExpired none store now).2 ↔
        (r ∈ store ∧ now < r.ExpiresAt)) ∧
      (BlacklistedTokenModel.CleanupExpired none store now).2.length +
        cleanupRowsAffected store now = store.length := by
  intro store now
  refine ⟨fun e => rfl, rfl, fun r => ?_, ?_⟩
  · simp [BlacklistedTokenModel.CleanupExpired, List.mem_filter]
  · induction store with
    | nil => rfl
    | cons r rest ih =>
      by_cases hr : now < r.ExpiresAt
      · have hr2 : ¬ (r.ExpiresAt ≤ now) := by omega
        simp [BlacklistedTokenModel.CleanupExpired, cleanupRowsAffected,
          List.countP_cons, hr, hr2] at ih ⊢
        omega
      · have hr2 : r.ExpiresAt ≤ now := by omega
        simp [BlacklistedTokenModel.CleanupExpired, cleanupRowsAffected,
          List.countP_cons, hr, hr2] at ih ⊢
        omega

end Konnect
